import Mathlib

/-!
# Verification of the NHANES confidence-interval notebook

Shallow embedding of `src/week2/nhanes_confidence_intervals.ipynb`.
The notebook recodes NHANES survey columns, groups by gender and age band,
and computes standard errors and confidence intervals for proportions and
means, plus a subsampling simulation.  Numeric columns are embedded as `ℚ`
(the raw codes and ages are exact small numbers) and the floating-point
formulas as functions on `ℝ` with `Real.sqrt`.
-/

namespace Nhanes

/-! ## Scalar formulas from the notebook cells -/

/-- Source: `se_female = np.sqrt(p * (1 - p) / n)` — standard error of a sample
proportion (cell computing `se_female` / `se_male`). -/
noncomputable def se_prop (p n : ℝ) : ℝ := Real.sqrt (p * (1 - p) / n)

/-- Source: `se = np.sqrt(pr * (1 - pr) / dn)` — the same formula applied
elementwise in the age-stratified cell. -/
noncomputable def se_strat (p n : ℝ) : ℝ := Real.sqrt (p * (1 - p) / n)

/-- Source: `lcb = p - 1.96 * np.sqrt(p * (1 - p) / n)` — lower limit of the
one-proportion 95% interval. -/
noncomputable def lcb_prop (p n : ℝ) : ℝ := p - 1.96 * Real.sqrt (p * (1 - p) / n)

/-- Source: `ucb = p + 1.96 * np.sqrt(p * (1 - p) / n)` — upper limit of the
one-proportion 95% interval. -/
noncomputable def ucb_prop (p n : ℝ) : ℝ := p + 1.96 * Real.sqrt (p * (1 - p) / n)

/-- Source: `se_diff = np.sqrt(se_female**2 + se_male**2)` — standard error of the
difference of the two smoking proportions. -/
noncomputable def se_diff (s₁ s₂ : ℝ) : ℝ := Real.sqrt (s₁ ^ 2 + s₂ ^ 2)

/-- Source: `se_diff = np.sqrt(se.Female**2 + se.Male**2)` — the same formula applied
elementwise inside each age band. -/
noncomputable def se_diff_strat (s₁ s₂ : ℝ) : ℝ := Real.sqrt (s₁ ^ 2 + s₂ ^ 2)

/-- Source: `sem_diff = np.sqrt(sem_female**2 + sem_male**2)` — standard error of the
difference of the two mean BMI values. -/
noncomputable def sem_diff (s₁ s₂ : ℝ) : ℝ := Real.sqrt (s₁ ^ 2 + s₂ ^ 2)

/-- Source: `lcb = d - 2*se_diff` — lower limit of the difference-of-proportions
interval (note the factor 2, not 1.96). -/
def lcb_propDiff (d s : ℝ) : ℝ := d - 2 * s

/-- Source: `ucb = d + 2*se_diff` — upper limit of the difference-of-proportions
interval. -/
def ucb_propDiff (d s : ℝ) : ℝ := d + 2 * s

/-- Source: `sem_female = 7.753 / np.sqrt(2976)` — standard error of a sample mean
with standard deviation `s` and sample size `n`. -/
noncomputable def sem (s n : ℝ) : ℝ := s / Real.sqrt n

/-- Source: `lcb_female = 29.94 - 1.96 * 7.753 / np.sqrt(2976)` — lower limit of the
one-mean 95% interval. -/
noncomputable def lcb_mean (m s n : ℝ) : ℝ := m - 1.96 * s / Real.sqrt n

/-- Source: `ucb_female = 29.94 + 1.96 * 7.753 / np.sqrt(2976)` — upper limit of the
one-mean 95% interval. -/
noncomputable def ucb_mean (m s n : ℝ) : ℝ := m + 1.96 * s / Real.sqrt n

/-- Source: `lcb = bmi_diff - 2*sem_diff` — lower limit of the overall
difference-of-means interval (factor 2 again). -/
def lcb_meanDiff (d s : ℝ) : ℝ := d - 2 * s

/-- Source: `ucb = bmi_diff + 2*sem_diff` — upper limit of the overall
difference-of-means interval. -/
def ucb_meanDiff (d s : ℝ) : ℝ := d + 2 * s

/-- Source: `pr["BMXBMI","lcb_diff",""] = mean_diff - 1.96 * sem_diff` — lower limit
of the age-stratified difference-of-means interval. -/
def lcb_diff_strat (d s : ℝ) : ℝ := d - 1.96 * s

/-- Source: `pr["BMXBMI","ucb_diff",""] = mean_diff + 1.96 * sem_diff` — upper limit
of the age-stratified difference-of-means interval. -/
def ucb_diff_strat (d s : ℝ) : ℝ := d + 1.96 * s

/-- Guarded version of the proportion standard error: the embedding returns
`none` on the error branches (division by zero, negative radicand) that a
total semantics of the cell would have. -/
noncomputable def se_prop_checked (p n : ℝ) : Option ℝ :=
  if n = 0 then none
  else if p * (1 - p) / n < 0 then none
  else some (Real.sqrt (p * (1 - p) / n))

/-- Guarded version of the one-proportion interval, built on the guarded
standard error. -/
noncomputable def ci_prop_checked (p n : ℝ) : Option (ℝ × ℝ) :=
  (se_prop_checked p n).map fun s => (p - 1.96 * s, p + 1.96 * s)

/-! ## Age bands: `pd.cut(da.RIDAGEYR, [18, 30, 40, 50, 60, 70, 80])`

`pd.cut` with these breakpoints forms six right-closed bins
`(18,30], (30,40], (40,50], (50,60], (60,70], (70,80]`; an age outside
`(18, 80]` gets a missing bin label and is then dropped by every
`groupby("agegrp", ...)`. -/

/-- The breakpoints `[18, 30, 40, 50, 60, 70, 80]` of the cut. -/
def breakAt : ℕ → ℚ
  | 0 => 18
  | 1 => 30
  | 2 => 40
  | 3 => 50
  | 4 => 60
  | 5 => 70
  | _ => 80

/-- Membership of `age` in the `i`-th right-closed bin `(breakAt i, breakAt (i+1)]`. -/
def inBand (i : ℕ) (age : ℚ) : Prop := breakAt i < age ∧ age ≤ breakAt (i + 1)

/-- Source: `da["agegrp"] = pd.cut(da.RIDAGEYR, [18, 30, 40, 50, 60, 70, 80])`:
the bin index assigned to an age, `none` for the missing label. -/
def agegrp (age : ℚ) : Option ℕ :=
  if age ≤ 18 then none
  else if age ≤ 30 then some 0
  else if age ≤ 40 then some 1
  else if age ≤ 50 then some 2
  else if age ≤ 60 then some 3
  else if age ≤ 70 then some 4
  else if age ≤ 80 then some 5
  else none

/-- The ages a `groupby` on the age band aggregates for band `i`:
rows whose bin label is `some i` (pandas drops missing group keys). -/
def bandRows (rows : List ℚ) (i : ℕ) : List ℚ :=
  rows.filter fun a => decide (agegrp a = some i)

/-! ## The smoking recode and the grouped proportions -/

/-- A row of the NHANES table, restricted to the columns the notebook
touches; `none` is a missing value (`np.nan`). -/
structure Row where
  SMQ020 : Option ℚ
  RIAGENDR : Option ℚ
  RIDAGEYR : Option ℚ
  BMXBMI : Option ℚ

/-- Value of the recoded smoking column: `"Yes"`, `"No"`, or an untouched
raw code (codes other than 1, 2, 7, 9 are not replaced). -/
inductive Smq where
  | yes : Smq
  | no : Smq
  | raw : ℚ → Smq
deriving DecidableEq

/-- Value of the recoded gender column. -/
inductive Gender where
  | male : Gender
  | female : Gender
  | rawG : ℚ → Gender
deriving DecidableEq

/-- Source: `da["SMQ020x"] = da.SMQ020.replace({1: "Yes", 2: "No", 7: np.nan, 9: np.nan})`. -/
def recodeSMQ : Option ℚ → Option Smq
  | none => none
  | some c =>
    if c = 1 then some Smq.yes
    else if c = 2 then some Smq.no
    else if c = 7 then none
    else if c = 9 then none
    else some (Smq.raw c)

/-- Source: `da["RIAGENDRx"] = da.RIAGENDR.replace({1: "Male", 2: "Female"})`. -/
def recodeGender : Option ℚ → Option Gender
  | none => none
  | some c =>
    if c = 1 then some Gender.male
    else if c = 2 then some Gender.female
    else some (Gender.rawG c)

/-- Source: `dx = da[["SMQ020x", "RIAGENDRx"]].dropna()`: the recoded pairs with
every row in which either variable is missing dropped. -/
def dxPairs (rows : List Row) : List (Smq × Gender) :=
  rows.filterMap fun r =>
    match recodeSMQ r.SMQ020, recodeGender r.RIAGENDR with
    | some s, some g => some (s, g)
    | _, _ => none

/-- The smoking answers of one gender group of
`dz = dx.groupby(dx.RIAGENDRx).agg(...)`. -/
def groupSmq (rows : List Row) (g : Gender) : List Smq :=
  (dxPairs rows).filterMap fun p => if p.2 = g then some p.1 else none

/-- Source: `Total_n` column: `np.size` of the group. -/
def Total_n (rows : List Row) (g : Gender) : ℕ := (groupSmq rows g).length

/-- Source: `Proportion` column: `np.mean(x == "Yes")` over the group — the count of
`"Yes"` divided by the group size. -/
def Proportion (rows : List Row) (g : Gender) : ℚ :=
  ((groupSmq rows g).countP fun s => decide (s = Smq.yes)) /
    ((groupSmq rows g).length : ℚ)

/-- Reference description of the rows that should back group `g`'s numbers:
rows with a definite yes/no smoking answer (raw code 1 or 2) and gender `g`. -/
def definiteRows (rows : List Row) (g : Gender) : List Row :=
  rows.filter fun r =>
    decide ((r.SMQ020 = some 1 ∨ r.SMQ020 = some 2) ∧
      recodeGender r.RIAGENDR = some g)

/-- Reference description of the "Yes" rows of group `g`: raw smoking code 1
and gender `g`. -/
def yesRows (rows : List Row) (g : Gender) : List Row :=
  rows.filter fun r =>
    decide (r.SMQ020 = some 1 ∧ recodeGender r.RIAGENDR = some g)

/-! ## The age-stratified smoking proportions (cell 27)

Source: `pr = da.groupby(["agegrp", "RIAGENDRx"]).agg({"SMQ020x": lambda x:
np.mean(x=="Yes")})` and `dn = da.groupby(...).agg({"SMQ020x": np.size})`.
These group the FULL table `da`, not the `dropna`'d `dx`: `groupby` drops
rows only for missing group keys (age band, gender), while inside each group
the `SMQ020x` series keeps its missing values — `NaN == "Yes"` is `False`,
so a missing answer counts in the denominator of `np.mean(x=="Yes")` and in
`np.size`. -/

/-- The rows of one (age band, gender) group of cell 27: band label `some i`
(a missing age gives a missing label and is dropped as a group key) and
recoded gender `g`; the smoking column is NOT filtered. -/
def stratRows (rows : List Row) (i : ℕ) (g : Gender) : List Row :=
  rows.filter fun r =>
    decide (Option.bind r.RIDAGEYR agegrp = some i ∧
      recodeGender r.RIAGENDR = some g)

/-- Cell-27 `dn` entry: `np.size` of the (age band, gender) group. -/
def dn_strat (rows : List Row) (i : ℕ) (g : Gender) : ℕ :=
  (stratRows rows i g).length

/-- Cell-27 `pr` entry: `np.mean(x == "Yes")` over the group's recoded
smoking column — count of "Yes" divided by the full group size, missing
answers included in the denominator. -/
def pr_strat (rows : List Row) (i : ℕ) (g : Gender) : ℚ :=
  ((stratRows rows i g).countP fun r =>
      decide (recodeSMQ r.SMQ020 = some Smq.yes)) /
    ((stratRows rows i g).length : ℚ)

/-- Reference description: the group's rows with raw smoking code 1 ("Yes"). -/
def stratYes (rows : List Row) (i : ℕ) (g : Gender) : List Row :=
  (stratRows rows i g).filter fun r => decide (r.SMQ020 = some 1)

/-- Reference description: the group's rows with a definite yes/no answer
(raw code 1 or 2). -/
def stratDefinite (rows : List Row) (i : ℕ) (g : Gender) : List Row :=
  (stratRows rows i g).filter fun r =>
    decide (r.SMQ020 = some 1 ∨ r.SMQ020 = some 2)

/-- Reference description: the group's rows without a definite yes/no
answer — under the NHANES codes these are exactly the rows whose recoded
smoking value is missing. -/
def stratNoAnswer (rows : List Row) (i : ℕ) (g : Gender) : List Row :=
  (stratRows rows i g).filter fun r =>
    !decide (r.SMQ020 = some 1 ∨ r.SMQ020 = some 2)

/-! ## The subsampling simulation

`dx = da.loc[da.RIAGENDRx=="Female", ["RIAGENDRx", "BMXBMI"]].dropna()`,
then for `n in 100, 200, 400, 800` the loop draws 500 unseeded subsamples
`dz = dx.sample(n)` and stores `sm.stats.DescrStatsW(dz.BMXBMI).zconfint_mean()`.
The unseeded `sample` reads and advances the global numpy random state; the
embedding threads that state explicitly. -/

/-- The non-missing female BMI values (the `dx` of the simulation cell). -/
def femaleBMI (rows : List Row) : List ℚ :=
  rows.filterMap fun r =>
    if recodeGender r.RIAGENDR = some Gender.female then r.BMXBMI else none

/-- The same values as reals, as the statistics routines consume them. -/
noncomputable def femaleBMIR (rows : List Row) : List ℝ :=
  (femaleBMI rows).map fun q : ℚ => (q : ℝ)

/-- Arithmetic mean of a list (`np.mean`). -/
noncomputable def listMean (xs : List ℝ) : ℝ := xs.sum / xs.length

/-- Population variance of a list (ddof = 0, the `DescrStatsW` default). -/
noncomputable def listVar (xs : List ℝ) : ℝ :=
  ((xs.map fun x => (x - listMean xs) ^ 2).sum) / xs.length

/-- Models `sm.stats.DescrStatsW(xs).zconfint_mean()`: the z-based 95%
interval `mean ± z · std / sqrt (n - 1)`, where `zq` stands for the 0.975
normal quantile the library uses (≈ 1.96). -/
noncomputable def zconfint_mean (zq : ℝ) (xs : List ℝ) : ℝ × ℝ :=
  (listMean xs - zq * Real.sqrt (listVar xs) / Real.sqrt ((xs.length : ℝ) - 1),
   listMean xs + zq * Real.sqrt (listVar xs) / Real.sqrt ((xs.length : ℝ) - 1))

/-- One step of the global random state that `dx.sample(n)` consumes; a
linear congruential step stands in for numpy's generator — the claims about
the simulation depend only on the state being threaded, not on the generator. -/
def lcg (s : ℕ) : ℕ := (1103515245 * s + 12345) % 2 ^ 31

/-- Source: `dx.sample(n)`: draw `k` rows without replacement, threading the random
state; returns the drawn values and the advanced state. -/
def sample : ℕ → List ℝ → ℕ → List ℝ × ℕ
  | 0, _, s => ([], s)
  | k + 1, xs, s =>
    let s' := lcg s
    if xs.length = 0 then ([], s')
    else
      let i := s' % xs.length
      let rest := sample k (xs.eraseIdx i) s'
      (xs.getD i 0 :: rest.1, rest.2)

/-- The inner loop `for i in range(500)`: `k` subsamples of size `n`, each
summarised by its z-interval; returns the interval list and the state. -/
noncomputable def repeatCIs (zq : ℝ) (dx : List ℝ) (n : ℕ) : ℕ → ℕ → List (ℝ × ℝ) × ℕ
  | 0, s => ([], s)
  | k + 1, s =>
    let smp := sample n dx s
    let rest := repeatCIs zq dx n k smp.2
    (zconfint_mean zq smp.1 :: rest.1, rest.2)

/-- The outer loop `for n in 100, 200, 400, 800`, generalised over the list
of sizes: 500 intervals per size. -/
noncomputable def simAll (zq : ℝ) (dx : List ℝ) : List ℕ → ℕ → List (ℕ × List (ℝ × ℝ)) × ℕ
  | [], s => ([], s)
  | n :: ns, s =>
    let cis := repeatCIs zq dx n 500 s
    let rest := simAll zq dx ns cis.2
    ((n, cis.1) :: rest.1, rest.2)

/-- Source: `all_cis`: the per-size interval lists the simulation accumulates. -/
noncomputable def all_cis (zq : ℝ) (rows : List Row) (s : ℕ) : List (ℕ × List (ℝ × ℝ)) :=
  (simAll zq (femaleBMIR rows) [100, 200, 400, 800] s).1

/-- Source: `mean_width = cis[:, 1].mean() - cis[:, 0].mean()`. -/
noncomputable def mean_width (cis : List (ℝ × ℝ)) : ℝ :=
  listMean (cis.map Prod.snd) - listMean (cis.map Prod.fst)

/-- The state a notebook execution carries: the table read from the CSV and
the global numpy random state. -/
structure ExecState where
  table : List Row
  rng : ℕ

/-- The closed-form results of the proportion cells, as a function of the
execution state: recoded group proportion and size, standard error, and the
one-proportion interval limits. -/
noncomputable def closedFormCells (st : ExecState) : ℚ × ℕ × ℝ × ℝ × ℝ :=
  let p : ℚ := Proportion st.table Gender.female
  let n : ℕ := Total_n st.table Gender.female
  (p, n, se_prop (p : ℝ) (n : ℝ), lcb_prop (p : ℝ) (n : ℝ), ucb_prop (p : ℝ) (n : ℝ))

/-- The subsampling draw `dz = dx.sample(n)` as a function of the execution
state. -/
noncomputable def sampleCell (n : ℕ) (st : ExecState) : List ℝ × ℕ :=
  sample n (femaleBMIR st.table) st.rng

end Nhanes

namespace Nhanes

/-! ## Theorems about the scalar formulas -/

/-- C2: for every group proportion `p` with `0 ≤ p ≤ 1` and sample size
`n > 0`, the standard error the notebook computes — both the overall
female/male one and the age-band one — equals `sqrt (p*(1-p)/n)`. -/
theorem se_matches_textbook (p n : ℝ) (hp0 : 0 ≤ p) (hp1 : p ≤ 1) (hn : 0 < n) :
    se_prop p n = Real.sqrt (p * (1 - p) / n) ∧
    se_strat p n = Real.sqrt (p * (1 - p) / n) := by
  exact ⟨rfl, rfl⟩

/-- Witness for `se_matches_textbook` at `p = 1/2`, `n = 4`. -/
theorem se_matches_textbook_witness :
    (0 ≤ (1/2 : ℝ) ∧ (1/2 : ℝ) ≤ 1 ∧ (0 : ℝ) < 4) ∧
    se_prop (1/2) 4 = Real.sqrt ((1/2) * (1 - 1/2) / 4) := by
  refine ⟨by norm_num, ?_⟩
  exact (se_matches_textbook (1/2) 4 (by norm_num) (by norm_num) (by norm_num)).1

/-- C3: the standard error of a difference of two independent estimates is
computed as `sqrt (SE₁² + SE₂²)` at all three places: the female–male
proportion difference, the age-stratified differences, and the female–male
mean BMI difference. -/
theorem se_diff_matches_textbook (s₁ s₂ : ℝ) :
    se_diff s₁ s₂ = Real.sqrt (s₁ ^ 2 + s₂ ^ 2) ∧
    se_diff_strat s₁ s₂ = Real.sqrt (s₁ ^ 2 + s₂ ^ 2) ∧
    sem_diff s₁ s₂ = Real.sqrt (s₁ ^ 2 + s₂ ^ 2) := ⟨rfl, rfl, rfl⟩

/-- C1 counterexample: the claim says every interval is
`estimate ± 1.96·SE`, but the difference-of-proportions interval is
`d - 2*se_diff`, which at `d = 0`, `SE = 1` differs from `0 - 1.96 * 1`. -/
theorem ci_not_all_196 : lcb_propDiff 0 1 ≠ 0 - 1.96 * 1 := by
  unfold lcb_propDiff; norm_num

/-- C1 amended: the one-proportion, one-mean and age-stratified
difference-of-means intervals are `estimate ± 1.96·SE`; the
difference-of-proportions and the overall difference-of-means intervals are
`estimate ± 2·SE`. -/
theorem ci_shapes (p n m s nn d sd : ℝ) :
    (lcb_prop p n = p - 1.96 * se_prop p n ∧ ucb_prop p n = p + 1.96 * se_prop p n) ∧
    (lcb_mean m s nn = m - 1.96 * sem s nn ∧ ucb_mean m s nn = m + 1.96 * sem s nn) ∧
    (lcb_diff_strat d sd = d - 1.96 * sd ∧ ucb_diff_strat d sd = d + 1.96 * sd) ∧
    (lcb_propDiff d sd = d - 2 * sd ∧ ucb_propDiff d sd = d + 2 * sd) ∧
    (lcb_meanDiff d sd = d - 2 * sd ∧ ucb_meanDiff d sd = d + 2 * sd) := by
  refine ⟨⟨rfl, rfl⟩, ⟨?_, ?_⟩, ⟨rfl, rfl⟩, ⟨rfl, rfl⟩, ⟨rfl, rfl⟩⟩
  · unfold lcb_mean sem; ring
  · unfold ucb_mean sem; ring

/-- C6: under the closed-form construction, quadrupling the sample size
exactly halves the interval width: for `0 ≤ p ≤ 1` and `n > 0`,
`width (4n) = width n / 2`. -/
theorem width_inverse_sqrt (p n : ℝ) (hp0 : 0 ≤ p) (hp1 : p ≤ 1) (hn : 0 < n) :
    ucb_prop p (4 * n) - lcb_prop p (4 * n) = (ucb_prop p n - lcb_prop p n) / 2 := by
  have ha : 0 ≤ p * (1 - p) := mul_nonneg hp0 (by linarith)
  have hkey : Real.sqrt (p * (1 - p) / (4 * n)) = Real.sqrt (p * (1 - p) / n) / 2 := by
    have h4 : Real.sqrt 4 = 2 := by
      rw [show (4 : ℝ) = 2 ^ 2 by norm_num, Real.sqrt_sq (by norm_num)]
    have : p * (1 - p) / (4 * n) = (p * (1 - p) / n) / 4 := by
      rw [div_div, mul_comm 4 n]
    rw [this, Real.sqrt_div (div_nonneg ha hn.le), h4]
  unfold ucb_prop lcb_prop
  rw [hkey]; ring

/-- Witness for `width_inverse_sqrt` at `p = 1/2`, `n = 1`. -/
theorem width_inverse_sqrt_witness :
    (0 ≤ (1/2 : ℝ) ∧ (1/2 : ℝ) ≤ 1 ∧ (0 : ℝ) < 1) ∧
    ucb_prop (1/2) (4 * 1) - lcb_prop (1/2) (4 * 1) =
      (ucb_prop (1/2) 1 - lcb_prop (1/2) 1) / 2 := by
  refine ⟨by norm_num, ?_⟩
  exact width_inverse_sqrt (1/2) 1 (by norm_num) (by norm_num) (by norm_num)

/-- C7: every interval the notebook builds contains its own point estimate
and is nonempty; for the `±2·SE` forms this needs `0 ≤ SE`, for the
square-root forms it is unconditional. -/
theorem ci_contains_estimate (p n m s nn d sd : ℝ) (hs : 0 ≤ s) (hsd : 0 ≤ sd) :
    (lcb_prop p n ≤ p ∧ p ≤ ucb_prop p n ∧ lcb_prop p n ≤ ucb_prop p n) ∧
    (lcb_mean m s nn ≤ m ∧ m ≤ ucb_mean m s nn ∧ lcb_mean m s nn ≤ ucb_mean m s nn) ∧
    (lcb_propDiff d sd ≤ d ∧ d ≤ ucb_propDiff d sd ∧ lcb_propDiff d sd ≤ ucb_propDiff d sd) ∧
    (lcb_meanDiff d sd ≤ d ∧ d ≤ ucb_meanDiff d sd ∧ lcb_meanDiff d sd ≤ ucb_meanDiff d sd) ∧
    (lcb_diff_strat d sd ≤ d ∧ d ≤ ucb_diff_strat d sd) := by
  have hr : 0 ≤ Real.sqrt (p * (1 - p) / n) := Real.sqrt_nonneg _
  have hm : 0 ≤ 1.96 * s / Real.sqrt nn :=
    div_nonneg (by positivity) (Real.sqrt_nonneg _)
  unfold lcb_prop ucb_prop lcb_mean ucb_mean lcb_propDiff ucb_propDiff
    lcb_meanDiff ucb_meanDiff lcb_diff_strat ucb_diff_strat
  constructor
  · exact ⟨by nlinarith, by nlinarith, by nlinarith⟩
  constructor
  · exact ⟨by linarith, by linarith, by linarith⟩
  constructor
  · exact ⟨by linarith, by linarith, by linarith⟩
  constructor
  · exact ⟨by linarith, by linarith, by linarith⟩
  · exact ⟨by nlinarith, by nlinarith⟩

/-- Witness for `ci_contains_estimate` at concrete values. -/
theorem ci_contains_estimate_witness :
    ((0 : ℝ) ≤ 1 ∧ (0 : ℝ) ≤ 1) ∧
    (lcb_prop (1/2) 4 ≤ 1/2 ∧ (1/2 : ℝ) ≤ ucb_prop (1/2) 4 ∧
      lcb_prop (1/2) 4 ≤ ucb_prop (1/2) 4) := by
  refine ⟨⟨zero_le_one, zero_le_one⟩, ?_⟩
  exact (ci_contains_estimate (1/2) 4 0 1 1 0 1 zero_le_one zero_le_one).1

/-- C10: under `0 ≤ p ≤ 1` and `n > 0` the radicand is non-negative, the
division is not by zero, and the guarded embedding never takes its error
branch: it returns exactly the unguarded value. -/
theorem se_checked_total (p n : ℝ) (hp0 : 0 ≤ p) (hp1 : p ≤ 1) (hn : 0 < n) :
    0 ≤ p * (1 - p) / n ∧
    se_prop_checked p n = some (se_prop p n) ∧
    ci_prop_checked p n = some (lcb_prop p n, ucb_prop p n) := by
  have ha : 0 ≤ p * (1 - p) / n :=
    div_nonneg (mul_nonneg hp0 (by linarith)) hn.le
  have h₁ : se_prop_checked p n = some (se_prop p n) := by
    unfold se_prop_checked se_prop
    rw [if_neg hn.ne', if_neg (not_lt.mpr ha)]
  refine ⟨ha, h₁, ?_⟩
  unfold ci_prop_checked
  rw [h₁]
  rfl

/-- Witness for `se_checked_total` at `p = 1/2`, `n = 4`. -/
theorem se_checked_total_witness :
    (0 ≤ (1/2 : ℝ) ∧ (1/2 : ℝ) ≤ 1 ∧ (0 : ℝ) < 4) ∧
    se_prop_checked (1/2) 4 = some (se_prop (1/2) 4) := by
  refine ⟨by norm_num, ?_⟩
  exact (se_checked_total (1/2) 4 (by norm_num) (by norm_num) (by norm_num)).2.1

/-- C8: the cut partitions ages into exactly six contiguous bands with the
stated breakpoints: a band member is assigned exactly that band; every age
in `(18, 80]` lies in some band; an age `≤ 18` or `> 80` gets the missing
label and belongs to no band's aggregate. -/
theorem agegrp_partition (age : ℚ) :
    (∀ i, i < 6 → inBand i age →
      agegrp age = some i ∧ ∀ j, j < 6 → inBand j age → j = i) ∧
    (18 < age ∧ age ≤ 80 → ∃ i, i < 6 ∧ inBand i age) ∧
    ((age ≤ 18 ∨ 80 < age) →
      agegrp age = none ∧ ∀ rows i, age ∉ bandRows rows i) := by
  refine ⟨fun i hi hband => ⟨?_, fun j hj hbj => ?_⟩, ?_, fun h => ?_⟩
  · interval_cases i <;>
      simp only [inBand, breakAt] at hband <;>
      obtain ⟨h₁, h₂⟩ := hband <;>
      unfold agegrp <;>
      split_ifs <;> first | rfl | (exfalso; linarith)
  · interval_cases i <;> interval_cases j <;>
      simp only [inBand, breakAt] at hband hbj <;>
      obtain ⟨a₁, a₂⟩ := hband <;>
      obtain ⟨b₁, b₂⟩ := hbj <;>
      first | rfl | (exfalso; linarith)
  · rintro ⟨h₁, h₂⟩
    rcases le_or_lt age 30 with h30 | h30
    · exact ⟨0, by norm_num, by constructor <;> simpa [breakAt]⟩
    rcases le_or_lt age 40 with h40 | h40
    · exact ⟨1, by norm_num, by constructor <;> simpa [breakAt]⟩
    rcases le_or_lt age 50 with h50 | h50
    · exact ⟨2, by norm_num, by constructor <;> simpa [breakAt]⟩
    rcases le_or_lt age 60 with h60 | h60
    · exact ⟨3, by norm_num, by constructor <;> simpa [breakAt]⟩
    rcases le_or_lt age 70 with h70 | h70
    · exact ⟨4, by norm_num, by constructor <;> simpa [breakAt]⟩
    · exact ⟨5, by norm_num, by constructor <;> simpa [breakAt]⟩
  · have hnone : agegrp age = none := by
      unfold agegrp
      split_ifs <;> first | rfl | (exfalso; rcases h with h | h <;> linarith)
    refine ⟨hnone, fun rows i hmem => ?_⟩
    rw [bandRows, List.mem_filter] at hmem
    have := of_decide_eq_true hmem.2
    rw [hnone] at this
    exact Option.noConfusion this

/-- Witness for `agegrp_partition`: age 25 goes to band 0, age 99 to none. -/
theorem agegrp_partition_witness :
    agegrp (25 : ℚ) = some 0 ∧ agegrp (99 : ℚ) = none := by
  constructor
  · exact ((agegrp_partition 25).1 0 (by norm_num)
      (by constructor <;> norm_num [breakAt])).1
  · exact ((agegrp_partition 99).2.2 (Or.inr (by norm_num))).1

lemma recodeSMQ_missing : recodeSMQ none = none := rfl

lemma recodeGender_missing : recodeGender none = none := rfl

lemma recodeSMQ_one : recodeSMQ (some 1) = some Smq.yes := by decide

lemma recodeSMQ_two : recodeSMQ (some 2) = some Smq.no := by decide

lemma recodeSMQ_seven : recodeSMQ (some 7) = none := by decide

lemma recodeSMQ_nine : recodeSMQ (some 9) = none := by decide

lemma groupSmq_counts (g : Gender) (rows : List Row)
    (hcodes : ∀ r ∈ rows, r.SMQ020 = none ∨ r.SMQ020 = some 1 ∨
      r.SMQ020 = some 2 ∨ r.SMQ020 = some 7 ∨ r.SMQ020 = some 9) :
    (groupSmq rows g).length = (definiteRows rows g).length ∧
    ((groupSmq rows g).countP fun s => decide (s = Smq.yes)) =
      (yesRows rows g).length := by
  induction rows with
  | nil => simp [groupSmq, dxPairs, definiteRows, yesRows]
  | cons r rs ih =>
    obtain ⟨h₁, h₂⟩ := ih fun x hx => hcodes x (List.mem_cons_of_mem _ hx)
    have hr := hcodes r (List.mem_cons_self _ _)
    simp [groupSmq, dxPairs, definiteRows, yesRows] at h₁ h₂
    rcases hgg : recodeGender r.RIAGENDR with _ | gg
    · rcases hr with h | h | h | h | h <;>
        (simp [groupSmq, dxPairs, definiteRows, yesRows, List.filterMap_cons,
          List.filter_cons, List.countP_cons, h, hgg, recodeSMQ_one,
          recodeSMQ_two, recodeSMQ_seven, recodeSMQ_nine, recodeSMQ_missing,
          recodeGender_missing] <;> omega)
    · by_cases hgeq : gg = g
      · subst hgeq
        rcases hr with h | h | h | h | h <;>
          (simp [groupSmq, dxPairs, definiteRows, yesRows, List.filterMap_cons,
            List.filter_cons, List.countP_cons, h, hgg, recodeSMQ_one,
            recodeSMQ_two, recodeSMQ_seven, recodeSMQ_nine, recodeSMQ_missing,
            recodeGender_missing] <;> omega)
      · have hne : recodeGender r.RIAGENDR ≠ some g := by
          rw [hgg]; exact fun hc => hgeq (Option.some.inj hc)
        rcases hr with h | h | h | h | h <;>
          (simp [groupSmq, dxPairs, definiteRows, yesRows, List.filterMap_cons,
            List.filter_cons, List.countP_cons, h, hgg, hgeq, hne,
            recodeSMQ_one, recodeSMQ_two, recodeSMQ_seven, recodeSMQ_nine,
            recodeSMQ_missing, recodeGender_missing] <;>
            omega)

lemma recodeSMQ_eq_yes (x : Option ℚ) : recodeSMQ x = some Smq.yes ↔ x = some 1 := by
  cases x with
  | none => simp [recodeSMQ]
  | some c =>
    rw [recodeSMQ]
    split_ifs with h1 h2 h7 h9
    · simp [h1]
    · exact iff_of_false (by simp) (by simp [h1])
    · exact iff_of_false (by simp) (by simp [h1])
    · exact iff_of_false (by simp) (by simp [h1])
    · exact iff_of_false (by simp) (by simp [h1])

lemma filter_length_split {α : Type} (p : α → Bool) (l : List α) :
    l.length = (l.filter p).length + (l.filter fun a => !p a).length := by
  induction l with
  | nil => rfl
  | cons a l ih =>
    by_cases h : p a <;> simp [List.filter_cons, h] <;> omega

/-- C9 counterexample: on a table with one "Yes" female row and one female
row with smoking code 7 (recoded to missing), both aged 25, the cell-27
age-stratified proportion for band 0 is 1/2 — the missing answer stays in
the denominator — while the fraction among definite yes/no answers is 1,
and the stratified group size is 2 while only 1 row has a definite answer.
So not every smoking-proportion computation drops rows with missing smoking
values. -/
theorem strat_includes_missing :
    pr_strat [Row.mk (some 1) (some 2) (some 25) none,
              Row.mk (some 7) (some 2) (some 25) none] 0 Gender.female = 1/2 ∧
    ((yesRows [Row.mk (some 1) (some 2) (some 25) none,
               Row.mk (some 7) (some 2) (some 25) none] Gender.female).length : ℚ) /
      ((definiteRows [Row.mk (some 1) (some 2) (some 25) none,
                      Row.mk (some 7) (some 2) (some 25) none] Gender.female).length : ℚ)
      = 1 ∧
    (1 : ℚ) / 2 ≠ 1 ∧
    dn_strat [Row.mk (some 1) (some 2) (some 25) none,
              Row.mk (some 7) (some 2) (some 25) none] 0 Gender.female = 2 ∧
    (definiteRows [Row.mk (some 1) (some 2) (some 25) none,
                   Row.mk (some 7) (some 2) (some 25) none] Gender.female).length = 1 := by
  have hy : (yesRows [Row.mk (some 1) (some 2) (some 25) none,
      Row.mk (some 7) (some 2) (some 25) none] Gender.female).length = 1 := by rfl
  have hd : (definiteRows [Row.mk (some 1) (some 2) (some 25) none,
      Row.mk (some 7) (some 2) (some 25) none] Gender.female).length = 1 := by rfl
  refine ⟨by rfl, ?_, by norm_num, by rfl, hd⟩
  rw [hy, hd]
  norm_num

/-- C9 amended: with raw smoking codes in {1, 2, 7, 9} (or missing), the
recode maps 1 to "Yes", 2 to "No", 7 and 9 to missing.  The overall
computation (cells 7/9) drops rows with a missing smoking or gender value
first: each group's `Total_n` counts exactly the rows with a definite
yes/no answer and that gender, and `Proportion` is the fraction of code-1
("Yes") rows among them.  The age-stratified computation (cell 27) does
NOT drop missing smoking answers: each (age band, gender) group's size
counts its no-answer rows too, its proportion is the "Yes" count divided
by that full size, and every no-answer row it counts has a missing recoded
smoking value. -/
theorem smoking_pipeline (rows : List Row) (g : Gender)
    (hcodes : ∀ r ∈ rows, r.SMQ020 = none ∨ r.SMQ020 = some 1 ∨
      r.SMQ020 = some 2 ∨ r.SMQ020 = some 7 ∨ r.SMQ020 = some 9) :
    recodeSMQ (some 1) = some Smq.yes ∧ recodeSMQ (some 2) = some Smq.no ∧
    recodeSMQ (some 7) = none ∧ recodeSMQ (some 9) = none ∧
    Total_n rows g = (definiteRows rows g).length ∧
    Proportion rows g =
      ((yesRows rows g).length : ℚ) / ((definiteRows rows g).length : ℚ) ∧
    ∀ i,
      dn_strat rows i g =
        (stratDefinite rows i g).length + (stratNoAnswer rows i g).length ∧
      pr_strat rows i g = ((stratYes rows i g).length : ℚ) /
        (((stratDefinite rows i g).length : ℚ) +
          ((stratNoAnswer rows i g).length : ℚ)) ∧
      ∀ r ∈ stratNoAnswer rows i g, recodeSMQ r.SMQ020 = none := by
  obtain ⟨h₁, h₂⟩ := groupSmq_counts g rows hcodes
  refine ⟨recodeSMQ_one, recodeSMQ_two, recodeSMQ_seven, recodeSMQ_nine, h₁,
    ?_, ?_⟩
  · rw [Proportion, h₁, h₂]
  · intro i
    have hsplit : (stratRows rows i g).length =
        (stratDefinite rows i g).length + (stratNoAnswer rows i g).length :=
      filter_length_split _ _
    have hnum : ((stratRows rows i g).countP fun r =>
        decide (recodeSMQ r.SMQ020 = some Smq.yes)) =
        (stratYes rows i g).length := by
      rw [stratYes, ← List.countP_eq_length_filter]
      refine List.countP_congr fun r _ => ?_
      simp only [decide_eq_true_eq]
      exact recodeSMQ_eq_yes r.SMQ020
    refine ⟨?_, ?_, ?_⟩
    · rw [dn_strat, hsplit]
    · rw [pr_strat, hnum, hsplit]
      norm_cast
    · intro r hr
      simp only [stratNoAnswer] at hr
      obtain ⟨hrs, hcond⟩ := List.mem_filter.mp hr
      simp only [stratRows] at hrs
      have hrow : r ∈ rows := (List.mem_filter.mp hrs).1
      have hnd : ¬(r.SMQ020 = some 1 ∨ r.SMQ020 = some 2) := by
        simpa using hcond
      rcases hcodes r hrow with h | h | h | h | h
      · rw [h]; rfl
      · exact absurd (Or.inl h) hnd
      · exact absurd (Or.inr h) hnd
      · rw [h]; exact recodeSMQ_seven
      · rw [h]; exact recodeSMQ_nine

/-- Witness for `smoking_pipeline` on a concrete five-row table
(codes 1, 2, 7, 1, missing; genders 2, 2, 2, 1, 2). -/
theorem smoking_pipeline_witness :
    (∀ r ∈ [Row.mk (some 1) (some 2) none none,
            Row.mk (some 2) (some 2) none none,
            Row.mk (some 7) (some 2) none none,
            Row.mk (some 1) (some 1) none none,
            Row.mk none (some 2) none none],
        r.SMQ020 = none ∨ r.SMQ020 = some 1 ∨ r.SMQ020 = some 2 ∨
        r.SMQ020 = some 7 ∨ r.SMQ020 = some 9) ∧
    Total_n [Row.mk (some 1) (some 2) none none,
            Row.mk (some 2) (some 2) none none,
            Row.mk (some 7) (some 2) none none,
            Row.mk (some 1) (some 1) none none,
            Row.mk none (some 2) none none] Gender.female =
      (definiteRows [Row.mk (some 1) (some 2) none none,
            Row.mk (some 2) (some 2) none none,
            Row.mk (some 7) (some 2) none none,
            Row.mk (some 1) (some 1) none none,
            Row.mk none (some 2) none none] Gender.female).length :=
  ⟨by decide, (smoking_pipeline _ Gender.female (by decide)).2.2.2.2.1⟩

/-- C4 counterexample: over the same two-row table, the subsampling draw
`dx.sample(n)` returns different rows for two different random states, so it
is not a function of the table alone. -/
theorem sample_depends_on_rng :
    (sampleCell 1 ⟨[Row.mk none (some 2) none (some 0),
                    Row.mk none (some 2) none (some 1)], 0⟩).1 ≠
    (sampleCell 1 ⟨[Row.mk none (some 2) none (some 0),
                    Row.mk none (some 2) none (some 1)], 1⟩).1 := by
  intro hc
  have h₁ : (sampleCell 1 ⟨[Row.mk none (some 2) none (some 0),
      Row.mk none (some 2) none (some 1)], 0⟩).1 = [((1 : ℚ) : ℝ)] := rfl
  have h₂ : (sampleCell 1 ⟨[Row.mk none (some 2) none (some 0),
      Row.mk none (some 2) none (some 1)], 1⟩).1 = [((0 : ℚ) : ℝ)] := rfl
  rw [h₁, h₂] at hc
  simp only [List.cons.injEq, and_true] at hc
  exact absurd hc (by norm_num)

/-- C4 amended: the closed-form cells are deterministic functions of the
table — two executions over the same table with any two random states agree
on them; only the unseeded subsampling reads the random state. -/
theorem closedForm_rng_independent (t : List Row) (s₁ s₂ : ℕ) :
    closedFormCells ⟨t, s₁⟩ = closedFormCells ⟨t, s₂⟩ := rfl

lemma sample_length : ∀ (k : ℕ) (xs : List ℝ) (s : ℕ), k ≤ xs.length →
    (sample k xs s).1.length = k := by
  intro k
  induction k with
  | zero => intro xs s _; rfl
  | succ k ih =>
    intro xs s h
    have hne : xs.length ≠ 0 := by omega
    have hi : lcg s % xs.length < xs.length :=
      Nat.mod_lt _ (Nat.pos_of_ne_zero hne)
    simp only [sample, if_neg hne, List.length_cons]
    rw [ih _ _ (by rw [List.length_eraseIdx_of_lt hi]; omega)]

lemma sample_mem : ∀ (k : ℕ) (xs : List ℝ) (s : ℕ) (x : ℝ),
    x ∈ (sample k xs s).1 → x ∈ xs := by
  intro k
  induction k with
  | zero => intro xs s x hx; simp [sample] at hx
  | succ k ih =>
    intro xs s x hx
    by_cases hne : xs.length = 0
    · simp [sample, hne] at hx
    · have hi : lcg s % xs.length < xs.length :=
        Nat.mod_lt _ (Nat.pos_of_ne_zero hne)
      simp only [sample, if_neg hne] at hx
      rcases List.mem_cons.mp hx with h | h
      · rw [h, List.getD_eq_getElem _ _ hi]
        exact List.getElem_mem _
      · exact List.eraseIdx_subset _ _ (ih _ _ _ h)

lemma repeatCIs_spec (zq : ℝ) (dx : List ℝ) (n : ℕ) (hn : n ≤ dx.length) :
    ∀ (k s : ℕ), (repeatCIs zq dx n k s).1.length = k ∧
      ∀ ci ∈ (repeatCIs zq dx n k s).1, ∃ smp : List ℝ,
        smp.length = n ∧ (∀ x ∈ smp, x ∈ dx) ∧ ci = zconfint_mean zq smp := by
  intro k
  induction k with
  | zero => intro s; exact ⟨rfl, by simp [repeatCIs]⟩
  | succ k ih =>
    intro s
    constructor
    · simp only [repeatCIs, List.length_cons]
      rw [(ih _).1]
    · intro ci hci
      simp only [repeatCIs] at hci
      rcases List.mem_cons.mp hci with h | h
      · exact ⟨(sample n dx s).1, sample_length n dx s hn,
          fun x hx => sample_mem n dx s x hx, h⟩
      · exact (ih _).2 ci h

/-- C5: for the sizes 100, 200, 400, 800 in that order, the simulation draws
exactly 500 subsamples of the stated size from the non-missing female BMI
values, summarises each by its z-interval, and reports the average width as
the mean of the upper limits minus the mean of the lower limits. -/
theorem subsampling_structure (zq : ℝ) (rows : List Row) (s : ℕ)
    (h : 800 ≤ (femaleBMIR rows).length) :
    (all_cis zq rows s).map Prod.fst = [100, 200, 400, 800] ∧
    ∀ e ∈ all_cis zq rows s,
      e.2.length = 500 ∧
      (∀ ci ∈ e.2, ∃ smp : List ℝ, smp.length = e.1 ∧
        (∀ x ∈ smp, x ∈ femaleBMIR rows) ∧ ci = zconfint_mean zq smp) ∧
      mean_width e.2 =
        listMean (e.2.map Prod.snd) - listMean (e.2.map Prod.fst) := by
  have h100 : (100 : ℕ) ≤ (femaleBMIR rows).length := by omega
  have h200 : (200 : ℕ) ≤ (femaleBMIR rows).length := by omega
  have h400 : (400 : ℕ) ≤ (femaleBMIR rows).length := by omega
  have h800 : (800 : ℕ) ≤ (femaleBMIR rows).length := h
  constructor
  · simp [all_cis, simAll]
  · intro e he
    simp only [all_cis, simAll, List.mem_cons, List.not_mem_nil, or_false] at he
    rcases he with rfl | rfl | rfl | rfl
    · obtain ⟨l₁, l₂⟩ := repeatCIs_spec zq _ 100 h100 500 s
      exact ⟨l₁, l₂, rfl⟩
    · obtain ⟨l₁, l₂⟩ := repeatCIs_spec zq _ 200 h200 500 _
      exact ⟨l₁, l₂, rfl⟩
    · obtain ⟨l₁, l₂⟩ := repeatCIs_spec zq _ 400 h400 500 _
      exact ⟨l₁, l₂, rfl⟩
    · obtain ⟨l₁, l₂⟩ := repeatCIs_spec zq _ 800 h800 500 _
      exact ⟨l₁, l₂, rfl⟩

/-- Witness for `subsampling_structure` on a table of 800 identical female
rows. -/
theorem subsampling_structure_witness :
    (800 ≤ (femaleBMIR (List.replicate 800
        (Row.mk none (some 2) none (some 25)))).length) ∧
    (all_cis 1.96 (List.replicate 800 (Row.mk none (some 2) none (some 25)))
        0).map Prod.fst = [100, 200, 400, 800] := by
  have hlen : 800 ≤ (femaleBMIR (List.replicate 800
      (Row.mk none (some 2) none (some 25)))).length := by
    have h8 : femaleBMI (List.replicate 800
        (Row.mk none (some 2) none (some 25))) = List.replicate 800 (25 : ℚ) := by
      rw [femaleBMI, List.filterMap_replicate]
      norm_num [recodeGender]
    rw [femaleBMIR, List.length_map, h8, List.length_replicate]
  exact ⟨hlen, (subsampling_structure 1.96 _ 0 hlen).1⟩

end Nhanes
